import Mathlib

/-!
Shallow embedding of the chess rules engine from `src/main.rs`.

Modelling conventions:
* Rust `i8` coordinates become `Int` (no claim in scope exercises i8 overflow).
* `Vec<Vec<Option<Piece>>>` becomes `List (List (Option Piece))`.
* Fallible operations (Rust index panics, `find_king` panic, slice underflow)
  return `Option`: `none` models the panic.
* The Rust recursion `is_endangered -> is_legal_move_no_check -> is_castle ->
  is_endangered` is not structurally terminating (on crafted boards with two
  unmoved kings on one row it diverges), so `is_endangered` takes a fuel
  parameter bounding the castling re-entry depth; fuel 0 answers `false`.
  Every concrete evaluation below uses visibly more fuel than the actual
  re-entry depth it needs.
-/

inductive Color where
  | White : Color
  | Black : Color
deriving DecidableEq

def Color.other : Color → Color
  | Color.White => Color.Black
  | Color.Black => Color.White

def Color.forward : Color → Int
  | Color.White => 1
  | Color.Black => -1

inductive PieceKind where
  | Pawn : PieceKind
  | Knight : PieceKind
  | Bishop : PieceKind
  | Rook : PieceKind
  | Queen : PieceKind
  | King : PieceKind
deriving DecidableEq

structure Piece where
  kind : PieceKind
  color : Color
  has_moved : Bool
deriving DecidableEq

def Piece.new (kind : PieceKind) (color : Color) (has_moved : Bool) : Piece :=
  { kind := kind, color := color, has_moved := has_moved }

structure Coord where
  row : Int
  col : Int
deriving DecidableEq

def Coord.offset (c other : Coord) : Coord :=
  { row := c.row + other.row, col := c.col + other.col }

structure Board where
  tiles : List (List (Option Piece))
  history : List (Coord × Coord)
deriving DecidableEq

/-- Rust `Board::get`: `self.tiles.get(row as usize)?.get(col as usize)?.clone()`.
A negative `i8` cast `as usize` is a huge index, hence out of range: modelled
by the explicit negativity test. -/
def Board.get (b : Board) (pos : Coord) : Option Piece :=
  if pos.row < 0 ∨ pos.col < 0 then none
  else ((b.tiles.get? pos.row.toNat).bind (fun r => r.get? pos.col.toNat)).join

/-- Rust `Board::set`: direct indexed store `self.tiles[r][c] = piece`, which
panics when either index is out of range; the panic is modelled by `none`. -/
def Board.set (b : Board) (pos : Coord) (piece : Option Piece) : Option Board :=
  if pos.row < 0 ∨ pos.col < 0 then none
  else
    match b.tiles.get? pos.row.toNat with
    | none => none
    | some rowTiles =>
      if pos.col.toNat < rowTiles.length then
        some { b with tiles := b.tiles.set pos.row.toNat (rowTiles.set pos.col.toNat piece) }
      else none

def Board.contains (_b : Board) (pos : Coord) : Bool :=
  decide (0 ≤ pos.row) && decide (0 ≤ pos.col) && decide (pos.row < 8) && decide (pos.col < 8)

/-- One step of the Rust `path_between` walk. The Rust loop runs until the
walker hits `end`; every call site first guarantees start and end share a row,
column or diagonal, so at most 6 intermediate squares are produced and the
fuel of 16 used below is never exhausted on those calls. -/
def pathAux (fuel : Nat) (d pos target : Coord) : List Coord :=
  match fuel with
  | 0 => []
  | f + 1 => if pos = target then [] else pos :: pathAux f d (pos.offset d) target

def Board.path_between (_b : Board) (s e : Coord) : List Coord :=
  let d : Coord := { row := (e.row - s.row).sign, col := (e.col - s.col).sign }
  pathAux 16 d (s.offset d) e

def Board.path_is_clear (b : Board) (s e : Coord) : Bool :=
  (b.path_between s e).all (fun pos => (b.get pos).isNone)

def Board.follows_pawn_move_pattern (b : Board) (start_piece : Piece) (s e : Coord) : Bool :=
  let forward := start_piece.color.forward
  match b.get e with
  | some end_piece =>
    decide (end_piece.color ≠ start_piece.color) && decide (e.row = s.row + forward) &&
      decide ((e.col - s.col).natAbs = 1)
  | none =>
    decide (s.col = e.col) &&
      (decide (e.row = s.row + forward) ||
        (decide (e.row = s.row + forward * 2) && !start_piece.has_moved && b.path_is_clear s e))

def Board.is_en_passant (b : Board) (start_piece : Piece) (s e : Coord) : Bool :=
  let forward := start_piece.color.forward
  decide (e.row = s.row + forward) && decide ((e.col - s.col).natAbs = 1) &&
    (match b.history.getLast? with
     | some (prev_start, prev_end) =>
       decide (e.col = prev_end.col) && decide (prev_start.col = prev_end.col) &&
         decide (prev_end.row = prev_start.row - forward * 2) &&
         (match b.get prev_end with
          | some prev_piece =>
            decide (prev_piece.kind = PieceKind.Pawn) && decide (prev_piece.color ≠ start_piece.color)
          | none => false)
     | none => false)

def Board.follows_knight_move_pattern (_b : Board) (s e : Coord) : Bool :=
  let d_row := (s.row - e.row).natAbs
  let d_col := (s.col - e.col).natAbs
  (decide (d_row = 1) && decide (d_col = 2)) || (decide (d_row = 2) && decide (d_col = 1))

def Board.follows_bishop_move_pattern (b : Board) (s e : Coord) : Bool :=
  decide ((e.row - s.row).natAbs = (e.col - s.col).natAbs) && b.path_is_clear s e

def Board.follows_rook_move_pattern (b : Board) (s e : Coord) : Bool :=
  (decide (e.row - s.row = 0) || decide (e.col - s.col = 0)) && b.path_is_clear s e

def Board.follows_queen_move_pattern (b : Board) (s e : Coord) : Bool :=
  b.follows_bishop_move_pattern s e || b.follows_rook_move_pattern s e

def Board.follows_king_move_pattern (_b : Board) (s e : Coord) : Bool :=
  decide ((e.row - s.row).natAbs ≤ 1) && decide ((e.col - s.col).natAbs ≤ 1)

/-- Rust `is_castle`, parameterised by the threat query so the mutual
recursion with `is_endangered` can be tied with a fuel parameter. -/
def is_castleF (endangered : Board → Color → Coord → Bool) (b : Board) (piece : Piece)
    (s e : Coord) : Bool :=
  if piece.has_moved then false
  else
    let d_row := e.row - s.row
    let d_col := e.col - s.col
    if ¬ (d_row = 0 ∧ d_col.natAbs = 2) then false
    else
      let rook_col : Int := if d_col = 2 then 7 else 0
      let rook_pos : Coord := { row := s.row, col := rook_col }
      if ((b.get rook_pos).map (fun rook => rook.has_moved)).getD true then false
      else
        let side := piece.color
        !(endangered b side s) && !(endangered b side rook_pos) &&
          !((b.path_between s e).any (fun pos => endangered b side pos))

/-- Rust `is_legal_move_no_check`, parameterised by the threat query used by
its castling branch. -/
def is_legal_move_no_checkF (endangered : Board → Color → Coord → Bool) (b : Board)
    (side : Color) (s e : Coord) : Bool :=
  if !(b.contains e) then false
  else
    match b.get s with
    | none => false
    | some start_piece =>
      if start_piece.color ≠ side then false
      else if (match b.get e with
               | some end_piece => decide (end_piece.color = start_piece.color)
               | none => false) then false
      else
        match start_piece.kind with
        | PieceKind.Pawn =>
          b.follows_pawn_move_pattern start_piece s e || b.is_en_passant start_piece s e
        | PieceKind.Knight => b.follows_knight_move_pattern s e
        | PieceKind.Bishop => b.follows_bishop_move_pattern s e
        | PieceKind.Rook => b.follows_rook_move_pattern s e
        | PieceKind.Queen => b.follows_queen_move_pattern s e
        | PieceKind.King =>
          b.follows_king_move_pattern s e || is_castleF endangered b start_piece s e

/-- Rust `is_endangered`: scan all 64 squares, row-major, asking whether the
opponent piece there could move onto `pos`. Fuel bounds the castling
re-entry depth; each extra castling layer costs one unit. -/
def is_endangered : Nat → Board → Color → Coord → Bool
  | 0, _, _, _ => false
  | fuel + 1, b, side, pos =>
    (List.range 8).any (fun row => (List.range 8).any (fun col =>
      is_legal_move_no_checkF (is_endangered fuel) b side.other
        { row := (row : Int), col := (col : Int) } pos))

def Board.is_legal_move_no_check (fuel : Nat) (b : Board) (side : Color) (s e : Coord) : Bool :=
  is_legal_move_no_checkF (is_endangered fuel) b side s e

def Board.is_castle (fuel : Nat) (b : Board) (piece : Piece) (s e : Coord) : Bool :=
  is_castleF (is_endangered fuel) b piece s e

/-- Row-major enumeration of the 64 board squares, the scan order of the Rust
nested loops. -/
def allSquares : List Coord :=
  (List.range 8).flatMap (fun row => (List.range 8).map (fun col =>
    { row := (row : Int), col := (col : Int) }))

/-- Rust `find_king` scans row-major and panics when no king is found; the
panic is modelled by `none`. -/
def Board.find_king (b : Board) (side : Color) : Option Coord :=
  allSquares.find? (fun pos =>
    match b.get pos with
    | some piece => decide (piece.kind = PieceKind.King) && decide (piece.color = side)
    | none => false)

def Board.king_is_in_check (fuel : Nat) (b : Board) (side : Color) : Option Bool :=
  (b.find_king side).map (fun king_pos => is_endangered fuel b side king_pos)

/-- Special-move side effects of Rust `make_move` (the `match piece.kind`
block): en-passant removal and the dead queen placement for pawns, rook
relocation for castling kings. -/
def Board.make_move_effects (b : Board) (piece : Piece) (s e : Coord) : Option Board :=
  match piece.kind with
  | PieceKind.Pawn =>
    (if b.is_en_passant piece s e then b.set { row := s.row, col := e.col } none
     else some b).bind (fun b1 =>
      if e.row = 7 ∨ e.row = 0 then
        b1.set e (some (Piece.new PieceKind.Queen piece.color true))
      else some b1)
  | PieceKind.King =>
    if 1 < e.col - s.col then
      (b.set { row := s.row, col := e.col - 1 }
          (some (Piece.new PieceKind.Rook piece.color true))).bind (fun b1 =>
        b1.set { row := s.row, col := s.col + 3 } none)
    else if e.col - s.col < -1 then
      (b.set { row := s.row, col := e.col + 1 }
          (some (Piece.new PieceKind.Rook piece.color true))).bind (fun b1 =>
        b1.set { row := s.row, col := s.col - 4 } none)
    else some b
  | _ => some b

/-- Rust `make_move`: no-op when the start square is empty; otherwise applies
the special-move effects, moves the piece (flagging `has_moved`), clears the
start square and appends to the history. `none` models an index panic. -/
def Board.make_move (b : Board) (s e : Coord) : Option Board :=
  match b.get s with
  | none => some b
  | some piece =>
    (b.make_move_effects piece s e).bind (fun b1 =>
      (b1.set e (some { piece with has_moved := true })).bind (fun b2 =>
        (b2.set s none).map (fun b3 => { b3 with history := b3.history ++ [(s, e)] })))

def Board.make_moves (b : Board) (moves : List (Coord × Coord)) : Option Board :=
  match moves with
  | [] => some b
  | (s, e) :: rest => (b.make_move s e).bind (fun b1 => b1.make_moves rest)

def Board.is_legal_move (fuel : Nat) (b : Board) (side : Color) (s e : Coord) : Option Bool :=
  if b.is_legal_move_no_check fuel side s e then
    (b.make_move s e).bind (fun check_board =>
      (check_board.king_is_in_check fuel side).map (fun c => !c))
  else some false

def emptyTiles : List (List (Option Piece)) :=
  List.replicate 8 (List.replicate 8 (none : Option Piece))

/-- Rust `Board::from_pieces`: direct indexed stores into a fresh 8x8 grid.
Every caller passes in-range coordinates (the Rust code would panic
otherwise); `List.set` silently drops the out-of-range case. -/
def Board.from_pieces (pieces : List (Coord × Piece)) : Board :=
  { tiles := pieces.foldl
      (fun tiles cp =>
        tiles.set cp.1.row.toNat ((tiles.getD cp.1.row.toNat []).set cp.1.col.toNat (some cp.2)))
      emptyTiles,
    history := [] }

def default_pieces : List (Coord × Piece) :=
  let base : List (Int × Int × PieceKind × Color) :=
    [(0, 0, PieceKind.Rook, Color.White), (0, 7, PieceKind.Rook, Color.White),
     (0, 1, PieceKind.Knight, Color.White), (0, 6, PieceKind.Knight, Color.White),
     (0, 2, PieceKind.Bishop, Color.White), (0, 5, PieceKind.Bishop, Color.White),
     (0, 4, PieceKind.King, Color.White), (0, 3, PieceKind.Queen, Color.White)] ++
      (List.range 8).map (fun col => ((1 : Int), (col : Int), PieceKind.Pawn, Color.White))
  let dark := base.map (fun q => (7 - q.1, q.2.1, q.2.2.1, Color.Black))
  (base ++ dark).map (fun q => ({ row := q.1, col := q.2.1 }, Piece.new q.2.2.1 q.2.2.2 false))

def Board.new : Board := Board.from_pieces default_pieces

/-- Rust `undo_move` slices `history[0 .. len - 1]` (a usize underflow panic on
an empty history, modelled by `none`) and replays that prefix from the
standard starting position. -/
def Board.undo_move (b : Board) : Option Board :=
  if b.history.length = 0 then none
  else Board.new.make_moves (b.history.take (b.history.length - 1))

/-- Modelled from the claim (the C3 reference scan): a single enemy piece's
raw movement pattern test against the target, with no castling re-entry for
kings and no check-safety logic. -/
def Board.raw_pattern_reaches (b : Board) (piece : Piece) (s e : Coord) : Bool :=
  match piece.kind with
  | PieceKind.Pawn => b.follows_pawn_move_pattern piece s e || b.is_en_passant piece s e
  | PieceKind.Knight => b.follows_knight_move_pattern s e
  | PieceKind.Bishop => b.follows_bishop_move_pattern s e
  | PieceKind.Rook => b.follows_rook_move_pattern s e
  | PieceKind.Queen => b.follows_queen_move_pattern s e
  | PieceKind.King => b.follows_king_move_pattern s e

/-- Modelled from the claim (the C3 reference scan): for each square holding a
piece of the side's opponent, test only that piece's raw movement pattern
against the target square. -/
def Board.ref_is_endangered (b : Board) (side : Color) (pos : Coord) : Bool :=
  allSquares.any (fun sq =>
    match b.get sq with
    | some piece => decide (piece.color = side.other) && b.raw_pattern_reaches piece sq pos
    | none => false)

/-- Failing input of the promotion claim: a lone White pawn one step from the
far rank. -/
def pawnBoard : Board :=
  Board.from_pieces [({ row := 6, col := 0 }, Piece.new PieceKind.Pawn Color.White false)]

/-- Black may castle queenside onto (7,2) here, yet no black piece's raw
pattern reaches (7,2): the rook is blocked by the pawn on (7,1). -/
def cex3Board : Board :=
  Board.from_pieces
    [({ row := 7, col := 4 }, Piece.new PieceKind.King Color.Black false),
     ({ row := 7, col := 0 }, Piece.new PieceKind.Rook Color.Black false),
     ({ row := 7, col := 1 }, Piece.new PieceKind.Pawn Color.Black false)]

/-- Kingside castle whose destination (7,6) is attacked by the white knight
on (5,7), while the start, rook square and traversed square (7,5) are not. -/
def cex4Board : Board :=
  Board.from_pieces
    [({ row := 7, col := 4 }, Piece.new PieceKind.King Color.Black false),
     ({ row := 7, col := 7 }, Piece.new PieceKind.Rook Color.Black false),
     ({ row := 5, col := 7 }, Piece.new PieceKind.Knight Color.White false)]

/-- Board on which castling conditions hold: unmoved white king and queenside
rook with no enemy pieces at all. -/
def castleOkBoard : Board :=
  Board.from_pieces
    [({ row := 0, col := 4 }, Piece.new PieceKind.King Color.White false),
     ({ row := 0, col := 0 }, Piece.new PieceKind.Rook Color.White false)]

/-- Unmoved white king on column 5 with an unmoved black knight on column 7:
`is_castle` accepts the two-column shift, and the simulated `make_move` then
clears column 8, out of bounds. -/
def cex8Board : Board :=
  Board.from_pieces
    [({ row := 0, col := 5 }, Piece.new PieceKind.King Color.White false),
     ({ row := 0, col := 7 }, Piece.new PieceKind.Knight Color.Black false),
     ({ row := 7, col := 0 }, Piece.new PieceKind.King Color.Black true)]

/-- Standard layout carrying a fabricated two-entry history whose first entry
moves the (0,0) rook off the board, so the undo replay faults. -/
def badHistoryBoard : Board :=
  { tiles := Board.new.tiles,
    history := [({ row := 0, col := 0 }, { row := 0, col := 9 }),
                ({ row := 0, col := 0 }, { row := 0, col := 1 })] }

/-! Helper lemmas shared by several developments below. -/

theorem make_move_empty_start (b : Board) (s e : Coord) (h : b.get s = none) :
    b.make_move s e = some b := by
  unfold Board.make_move
  rw [h]

/-- C10: a move whose start square is empty (including off-board start
coordinates) leaves the position entirely unchanged: no tile changes and the
history is not appended to. -/
theorem C10_empty_start_noop (b : Board) (s e : Coord) (h : b.get s = none) :
    b.make_move s e = some b :=
  make_move_empty_start b s e h

theorem C10_empty_start_noop_witness :
    Board.new.make_move { row := 4, col := 4 } { row := 0, col := 0 } = some Board.new :=
  C10_empty_start_noop Board.new { row := 4, col := 4 } { row := 0, col := 0 } (by decide)

/-- C1: at the failing input (lone White pawn on (6,0) moving to the far rank
square (7,0)) the piece occupying the destination after `make_move` is the
White Pawn with its moved flag set, not a Queen: the queen placed by the
promotion branch is immediately overwritten by the unconditional
`set end piece` that moves the pawn. -/
theorem C1_promotion_overwritten :
    (pawnBoard.make_move { row := 6, col := 0 } { row := 7, col := 0 }).bind
        (fun b2 => b2.get { row := 7, col := 0 }) =
      some (Piece.new PieceKind.Pawn Color.White true) := by
  decide

/-- C5 counterexample: on the reachable position `Board.new`, the move
((4,4),(4,5)) from an empty square is applied by `make_move` as a no-op, and
`undo_move` then faults on the empty history instead of restoring anything. -/
theorem C5_counterexample :
    Board.new.make_move { row := 4, col := 4 } { row := 4, col := 5 } = some Board.new ∧
      Board.new.undo_move = none := by
  decide

/-- C9 counterexample: a position with a two-entry history whose truncated
prefix replays a rook to column 9; the history is non-empty, yet `undo_move`
faults instead of completing. -/
theorem C9_counterexample :
    badHistoryBoard.history ≠ [] ∧ badHistoryBoard.undo_move = none := by
  decide

/-- C3 counterexample: on `cex3Board` the square (7,2) is reported endangered
for White only because the unmoved black king could castle onto it; the
castle-free reference scan reports it safe (the rook is blocked by the pawn
on (7,1)). -/
theorem C3_counterexample :
    is_endangered 5 cex3Board Color.White { row := 7, col := 2 } = true ∧
      cex3Board.ref_is_endangered Color.White { row := 7, col := 2 } = false := by
  decide

/-- C4 counterexample: `is_castle` accepts the black kingside castle on
`cex4Board` even though the destination (7,6) is attacked by the white
knight, because `path_between` excludes the destination square. -/
theorem C4_counterexample :
    cex4Board.is_castle 3 (Piece.new PieceKind.King Color.Black false)
        { row := 7, col := 4 } { row := 7, col := 6 } = true ∧
      is_endangered 3 cex4Board Color.Black { row := 7, col := 6 } = true := by
  decide

/-- C8 counterexample: on `cex8Board` (kings of both colors present) the
castle-shaped king move (0,5) to (0,7) passes `is_legal_move_no_check`, and
the simulated `make_move` then writes to column 8, out of bounds: the whole
`is_legal_move` call faults instead of returning a verdict. -/
theorem C8_counterexample :
    cex8Board.is_legal_move 5 Color.White { row := 0, col := 5 } { row := 0, col := 7 } =
      none := by
  decide

/-- C2: any move accepted by `is_legal_move` yields, via `make_move`, a
position in which the mover's own king is not in check (this is exactly the
simulation the checker performs). -/
theorem C2_legal_implies_safe (fuel : Nat) (b : Board) (side : Color) (s e : Coord)
    (h : b.is_legal_move fuel side s e = some true) :
    ∃ b2, b.make_move s e = some b2 ∧ b2.king_is_in_check fuel side = some false := by
  unfold Board.is_legal_move at h
  split at h
  · obtain ⟨b2, hb2, hmap⟩ := Option.bind_eq_some.mp h
    obtain ⟨c, hc, hcb⟩ := Option.map_eq_some'.mp hmap
    have hcf : c = false := by cases c <;> simp_all
    exact ⟨b2, hb2, by rw [hc, hcf]⟩
  · exact absurd h (by simp)

theorem C2_legal_implies_safe_witness :
    ∃ b2, Board.new.make_move { row := 1, col := 4 } { row := 2, col := 4 } = some b2 ∧
      b2.king_is_in_check 5 Color.White = some false :=
  C2_legal_implies_safe 5 Board.new Color.White { row := 1, col := 4 } { row := 2, col := 4 }
    (by decide)

/-- C8 (amended): each invalid intent — off-board end, empty start square,
wrong-side piece on the start square, or a piece of the moving side on the
end square — makes `is_legal_move` return `some false`, without faulting. -/
theorem C8_invalid_intents (fuel : Nat) (b : Board) (side : Color) (s e : Coord)
    (h : b.contains e = false ∨ b.get s = none ∨
      (∃ p, b.get s = some p ∧ p.color ≠ side) ∨
      (∃ q, b.get e = some q ∧ q.color = side)) :
    b.is_legal_move fuel side s e = some false := by
  have hnc : b.is_legal_move_no_check fuel side s e = false := by
    unfold Board.is_legal_move_no_check is_legal_move_no_checkF
    rcases h with h | h | ⟨p, hp, hps⟩ | ⟨q, hq, hqs⟩
    · simp [h]
    · cases hc : b.contains e <;> simp [h, hc]
    · cases hc : b.contains e <;> simp [hp, hc, hps]
    · cases hc : b.contains e
      · simp [hc]
      · cases hgs : b.get s with
        | none => simp [hgs, hc]
        | some p =>
          by_cases hpc : p.color = side
          · simp [hgs, hc, hq, hqs, hpc]
          · simp [hgs, hc, hpc]
  unfold Board.is_legal_move
  simp [hnc]

theorem C8_invalid_intents_witness :
    Board.new.is_legal_move 1 Color.White { row := 0, col := 0 } { row := 0, col := 8 } =
      some false :=
  C8_invalid_intents 1 Board.new Color.White { row := 0, col := 0 } { row := 0, col := 8 }
    (Or.inl (by decide))

/-- C4 (amended): `is_castle` returns true only if the king is unmoved, the
move is a pure two-column shift, the piece on the corresponding rook square
exists and has never moved, and none of the start square, the rook square and
every square strictly between start and destination (destination excluded) is
attacked by the opposing side. -/
theorem C4_castle_conditions (fuel : Nat) (b : Board) (piece : Piece) (s e : Coord)
    (h : b.is_castle fuel piece s e = true) :
    piece.has_moved = false ∧ e.row - s.row = 0 ∧ (e.col - s.col).natAbs = 2 ∧
      (∃ rook,
        b.get { row := s.row, col := if e.col - s.col = 2 then 7 else 0 } = some rook ∧
          rook.has_moved = false) ∧
      is_endangered fuel b piece.color s = false ∧
      is_endangered fuel b piece.color
        { row := s.row, col := if e.col - s.col = 2 then 7 else 0 } = false ∧
      (∀ pos ∈ b.path_between s e, is_endangered fuel b piece.color pos = false) := by
  unfold Board.is_castle at h
  simp only [is_castleF] at h
  split at h
  · simp at h
  next hmoved =>
    have hm : piece.has_moved = false := by revert hmoved; cases piece.has_moved <;> simp
    split at h
    · simp at h
    next hd =>
      obtain ⟨hd0, hd2⟩ := not_not.mp hd
      split at h
      next hcol =>
        simp at h
        obtain ⟨hget, ⟨h1, h2⟩, h3⟩ := h
        refine ⟨hm, hd0, hd2, ?_, h1, ?_, h3⟩
        · rw [if_pos hcol]
          cases hrg : b.get { row := s.row, col := (7 : Int) } with
          | none => rw [hrg] at hget; simp at hget
          | some rook =>
            rw [hrg] at hget
            simp at hget
            exact ⟨rook, rfl, hget⟩
        · rw [if_pos hcol]
          exact h2
      next hcol =>
        simp at h
        obtain ⟨hget, ⟨h1, h2⟩, h3⟩ := h
        refine ⟨hm, hd0, hd2, ?_, h1, ?_, h3⟩
        · rw [if_neg hcol]
          cases hrg : b.get { row := s.row, col := (0 : Int) } with
          | none => rw [hrg] at hget; simp at hget
          | some rook =>
            rw [hrg] at hget
            simp at hget
            exact ⟨rook, rfl, hget⟩
        · rw [if_neg hcol]
          exact h2

theorem C4_castle_conditions_witness :
    (Piece.new PieceKind.King Color.White false).has_moved = false ∧
      (0 : Int) - 0 = 0 ∧ ((2 : Int) - 4).natAbs = 2 ∧
      (∃ rook,
        castleOkBoard.get
            { row := 0, col := if (2 : Int) - 4 = 2 then 7 else 0 } = some rook ∧
          rook.has_moved = false) ∧
      is_endangered 1 castleOkBoard Color.White { row := 0, col := 4 } = false ∧
      is_endangered 1 castleOkBoard Color.White
        { row := 0, col := if (2 : Int) - 4 = 2 then 7 else 0 } = false ∧
      (∀ pos ∈ castleOkBoard.path_between { row := 0, col := 4 } { row := 0, col := 2 },
        is_endangered 1 castleOkBoard Color.White pos = false) :=
  C4_castle_conditions 1 castleOkBoard (Piece.new PieceKind.King Color.White false)
    { row := 0, col := 4 } { row := 0, col := 2 } (by decide)

/-- C3 (amended): `is_endangered` equals the 64-square scan that asks, for
each square, whether `is_legal_move_no_check` lets the opponent move from
there onto the target; that test includes the castling re-entry for an
unmoved enemy king (see the counterexample), not a castle-free raw pattern. -/
theorem C3_endangered_scan (fuel : Nat) (b : Board) (side : Color) (pos : Coord) :
    is_endangered (fuel + 1) b side pos = true ↔
      ∃ row col : Nat, row < 8 ∧ col < 8 ∧
        b.is_legal_move_no_check fuel side.other
          { row := (row : Int), col := (col : Int) } pos = true := by
  simp only [is_endangered, Board.is_legal_move_no_check, List.any_eq_true, List.mem_range]
  constructor
  · rintro ⟨r, hr, c, hc, hx⟩
    exact ⟨r, c, hr, hc, hx⟩
  · rintro ⟨r, c, hr, hc, hx⟩
    exact ⟨r, hr, c, hc, hx⟩

theorem Board.set_history (b : Board) (pos : Coord) (piece : Option Piece) (b2 : Board)
    (h : b.set pos piece = some b2) : b2.history = b.history := by
  unfold Board.set at h
  split at h
  · simp at h
  · split at h
    · simp at h
    · split at h
      · have hx := Option.some.inj h
        subst hx
        rfl
      · simp at h

theorem Board.make_move_effects_history (b : Board) (piece : Piece) (s e : Coord) (b2 : Board)
    (h : b.make_move_effects piece s e = some b2) : b2.history = b.history := by
  unfold Board.make_move_effects at h
  split at h
  · obtain ⟨b1, h1, h2⟩ := Option.bind_eq_some.mp h
    have e1 : b1.history = b.history := by
      split at h1
      · exact Board.set_history _ _ _ _ h1
      · have hx := Option.some.inj h1
        subst hx
        rfl
    have e2 : b2.history = b1.history := by
      split at h2
      · exact Board.set_history _ _ _ _ h2
      · have hx := Option.some.inj h2
        subst hx
        rfl
    rw [e2, e1]
  · split at h
    · obtain ⟨b1, h1, h2⟩ := Option.bind_eq_some.mp h
      rw [Board.set_history _ _ _ _ h2, Board.set_history _ _ _ _ h1]
    · split at h
      · obtain ⟨b1, h1, h2⟩ := Option.bind_eq_some.mp h
        rw [Board.set_history _ _ _ _ h2, Board.set_history _ _ _ _ h1]
      · have hx := Option.some.inj h
        subst hx
        rfl
  · have hx := Option.some.inj h
    subst hx
    rfl

theorem Board.make_move_history (b : Board) (s e : Coord) (piece : Piece) (b2 : Board)
    (hs : b.get s = some piece) (h : b.make_move s e = some b2) :
    b2.history = b.history ++ [(s, e)] := by
  unfold Board.make_move at h
  simp only [hs] at h
  obtain ⟨b1, h1, h2⟩ := Option.bind_eq_some.mp h
  obtain ⟨bb, hbb, h3⟩ := Option.bind_eq_some.mp h2
  obtain ⟨b3, hb3, h4⟩ := Option.map_eq_some'.mp h3
  have hist3 : b3.history = b.history := by
    rw [Board.set_history _ _ _ _ hb3, Board.set_history _ _ _ _ hbb,
      Board.make_move_effects_history _ _ _ _ _ h1]
  subst h4
  show b3.history ++ [(s, e)] = b.history ++ [(s, e)]
  rw [hist3]

theorem Board.make_moves_append (b : Board) (l1 l2 : List (Coord × Coord)) :
    b.make_moves (l1 ++ l2) = (b.make_moves l1).bind (fun x => x.make_moves l2) := by
  induction l1 generalizing b with
  | nil => simp [Board.make_moves]
  | cons hd tl ih =>
    obtain ⟨s, e⟩ := hd
    simp only [List.cons_append, Board.make_moves]
    cases hm : b.make_move s e with
    | none => simp
    | some b1 => simp [ih b1]

theorem Board.replay_history (ms : List (Coord × Coord)) (b : Board)
    (h : Board.new.make_moves ms = some b) :
    Board.new.make_moves b.history = some b := by
  induction ms using List.reverseRecOn generalizing b with
  | nil =>
    have hx := Option.some.inj h
    subst hx
    rfl
  | append_singleton tl m ih =>
    obtain ⟨s, e⟩ := m
    rw [Board.make_moves_append] at h
    obtain ⟨b1, hb1, hstep⟩ := Option.bind_eq_some.mp h
    have hstep' : b1.make_move s e = some b := by
      simpa [Board.make_moves] using hstep
    cases hg : b1.get s with
    | none =>
      rw [make_move_empty_start b1 s e hg] at hstep'
      have hx := Option.some.inj hstep'
      subst hx
      exact ih _ hb1
    | some piece =>
      have hh : b.history = b1.history ++ [(s, e)] :=
        Board.make_move_history b1 s e piece b hg hstep'
      rw [hh, Board.make_moves_append, ih b1 hb1]
      simpa [Board.make_moves] using hstep'

/-- C5 (amended): for any position reachable from the standard start and any
move whose start square is occupied (as every move actually recorded by
`make_move` is), applying `make_move` and then `undo_move` restores exactly
the prior position, occupancy and history included. -/
theorem C5_make_undo_roundtrip (ms : List (Coord × Coord)) (b b2 : Board) (s e : Coord)
    (piece : Piece) (hreach : Board.new.make_moves ms = some b)
    (hocc : b.get s = some piece) (happly : b.make_move s e = some b2) :
    b2.undo_move = some b := by
  have hh : b2.history = b.history ++ [(s, e)] :=
    Board.make_move_history b s e piece b2 hocc happly
  unfold Board.undo_move
  rw [hh, if_neg (by simp)]
  have hlen : (b.history ++ [(s, e)]).length - 1 = b.history.length := by simp
  rw [hlen, List.take_left]
  exact Board.replay_history ms b hreach

theorem C5_make_undo_roundtrip_witness :
    (Board.new.make_move { row := 1, col := 4 } { row := 3, col := 4 }).bind Board.undo_move =
      some Board.new := by
  cases hm : Board.new.make_move { row := 1, col := 4 } { row := 3, col := 4 } with
  | none => exact absurd hm (by decide)
  | some b2 =>
    show b2.undo_move = some Board.new
    exact C5_make_undo_roundtrip [] Board.new b2 { row := 1, col := 4 } { row := 3, col := 4 }
      (Piece.new PieceKind.Pawn Color.White false) rfl (by decide) hm

/-- C9 (amended): with empty history `undo_move` reaches the bounds-underflow
error branch and returns no position; with non-empty history the slice
`history[0 .. len - 1]` is in bounds and `undo_move` replays exactly that
prefix from the standard start, completing with a position whenever the
prefix replays without fault, which holds for every position produced by
applying moves from the start. -/
theorem C9_undo_spec (b : Board) :
    (b.history = [] → b.undo_move = none) ∧
      (b.history ≠ [] →
        b.undo_move = Board.new.make_moves (b.history.take (b.history.length - 1))) ∧
      (∀ ms, Board.new.make_moves ms = some b → b.history ≠ [] →
        ∃ b2, b.undo_move = some b2) := by
  refine ⟨?_, ?_, ?_⟩
  · intro h
    unfold Board.undo_move
    simp [h]
  · intro h
    unfold Board.undo_move
    rw [if_neg (by simpa [List.length_eq_zero] using h)]
  · intro ms hms hne
    have hreplay := Board.replay_history ms b hms
    have h2 : (Board.new.make_moves (b.history.take (b.history.length - 1))).bind
        (fun x => x.make_moves (b.history.drop (b.history.length - 1))) = some b := by
      rw [← Board.make_moves_append, List.take_append_drop]
      exact hreplay
    obtain ⟨mid, hmid, _⟩ := Option.bind_eq_some.mp h2
    refine ⟨mid, ?_⟩
    unfold Board.undo_move
    rw [if_neg (by simpa [List.length_eq_zero] using hne)]
    exact hmid

theorem C9_undo_spec_witness : Board.new.undo_move = none :=
  (C9_undo_spec Board.new).1 rfl

theorem Color.forward_cases (c : Color) : c.forward = 1 ∨ c.forward = -1 := by
  cases c <;> simp [Color.forward]

theorem pathAux_succ (f : Nat) (d pos target : Coord) :
    pathAux (f + 1) d pos target =
      if pos = target then [] else pos :: pathAux f d (pos.offset d) target :=
  rfl

theorem path_between_double_step (b : Board) (sr sc f : Int) (hf : f = 1 ∨ f = -1) :
    b.path_between { row := sr, col := sc } { row := sr + f * 2, col := sc } =
      [{ row := sr + f, col := sc }] := by
  rcases hf with hf | hf <;> subst hf
  · simp only [Board.path_between, Coord.offset]
    rw [show sr + 1 * 2 - sr = 2 by ring, show sc - sc = 0 by ring,
      show ((2 : Int).sign) = 1 from rfl, show ((0 : Int).sign) = 0 from rfl]
    rw [show (16 : Nat) = 15 + 1 from rfl, pathAux_succ,
      if_neg (by simp only [ne_eq, Coord.mk.injEq, not_and]; intro h; omega)]
    rw [show (Coord.offset { row := sr + 1, col := sc + 0 } { row := 1, col := 0 }) =
      { row := sr + 1 * 2, col := sc } by simp only [Coord.offset, Coord.mk.injEq]; omega]
    rw [show (15 : Nat) = 14 + 1 from rfl, pathAux_succ, if_pos rfl]
    simp
  · simp only [Board.path_between, Coord.offset]
    rw [show sr + -1 * 2 - sr = -2 by ring, show sc - sc = 0 by ring,
      show (((-2) : Int).sign) = -1 from rfl, show ((0 : Int).sign) = 0 from rfl]
    rw [show (16 : Nat) = 15 + 1 from rfl, pathAux_succ,
      if_neg (by simp only [ne_eq, Coord.mk.injEq, not_and]; intro h; omega)]
    rw [show (Coord.offset { row := sr + -1, col := sc + 0 } { row := -1, col := 0 }) =
      { row := sr + -1 * 2, col := sc } by simp only [Coord.offset, Coord.mk.injEq]; omega]
    rw [show (15 : Nat) = 14 + 1 from rfl, pathAux_succ, if_pos rfl]
    simp

/-- C7: the pawn move pattern accepts exactly forward-one onto an empty
square; forward-two onto an empty square only for an unmoved pawn with the
intervening square empty; and diagonal-forward-one onto a square occupied by
a piece of the opposite color. -/
theorem C7_pawn_pattern_iff (b : Board) (start_piece : Piece) (s e : Coord) :
    b.follows_pawn_move_pattern start_piece s e = true ↔
      ((b.get e = none ∧ s.col = e.col ∧ e.row = s.row + start_piece.color.forward) ∨
       (b.get e = none ∧ s.col = e.col ∧
         e.row = s.row + start_piece.color.forward * 2 ∧ start_piece.has_moved = false ∧
         b.get { row := s.row + start_piece.color.forward, col := s.col } = none) ∨
       (∃ end_piece, b.get e = some end_piece ∧ end_piece.color ≠ start_piece.color ∧
         e.row = s.row + start_piece.color.forward ∧ (e.col - s.col).natAbs = 1)) := by
  obtain ⟨sr, sc⟩ := s
  obtain ⟨er, ec⟩ := e
  cases hg : b.get { row := er, col := ec } with
  | some end_piece =>
    constructor
    · intro h
      unfold Board.follows_pawn_move_pattern at h
      simp only [hg, Bool.and_eq_true, decide_eq_true_eq, and_assoc] at h
      exact Or.inr (Or.inr ⟨end_piece, rfl, h.1, h.2.1, h.2.2⟩)
    · intro h
      unfold Board.follows_pawn_move_pattern
      simp only [hg, Bool.and_eq_true, decide_eq_true_eq, and_assoc]
      rcases h with ⟨hn, _, _⟩ | ⟨hn, _, _, _, _⟩ | ⟨ep, hep, h1, h2, h3⟩
      · simp at hn
      · simp at hn
      · have hx := Option.some.inj hep
        subst hx
        exact ⟨h1, h2, h3⟩
  | none =>
    constructor
    · intro h
      unfold Board.follows_pawn_move_pattern at h
      simp only [hg, Bool.and_eq_true, Bool.or_eq_true, decide_eq_true_eq,
        Bool.not_eq_true', and_assoc] at h
      obtain ⟨hcol, hone | ⟨htwo, hmv, hclear⟩⟩ := h
      · exact Or.inl ⟨rfl, hcol, hone⟩
      · refine Or.inr (Or.inl ⟨rfl, hcol, htwo, hmv, ?_⟩)
        subst hcol
        subst htwo
        unfold Board.path_is_clear at hclear
        rw [path_between_double_step b sr sc start_piece.color.forward
          (Color.forward_cases start_piece.color)] at hclear
        simpa [List.all_cons, Option.isNone_iff_eq_none] using hclear
    · intro h
      unfold Board.follows_pawn_move_pattern
      simp only [hg, Bool.and_eq_true, Bool.or_eq_true, decide_eq_true_eq,
        Bool.not_eq_true', and_assoc]
      rcases h with ⟨_, hcol, hone⟩ | ⟨_, hcol, htwo, hmv, hmid⟩ | ⟨ep, hep, _⟩
      · have hcol2 : sc = ec := hcol
        have hone2 : er = sr + start_piece.color.forward := hone
        exact ⟨hcol2, Or.inl hone2⟩
      · have hcol2 : sc = ec := hcol
        have htwo2 : er = sr + start_piece.color.forward * 2 := htwo
        have hmid2 : b.get { row := sr + start_piece.color.forward, col := sc } = none := hmid
        refine ⟨hcol2, Or.inr ⟨htwo2, hmv, ?_⟩⟩
        subst hcol2
        subst htwo2
        unfold Board.path_is_clear
        rw [path_between_double_step b sr sc start_piece.color.forward
          (Color.forward_cases start_piece.color)]
        simpa [List.all_cons, Option.isNone_iff_eq_none] using hmid2
      · simp at hep

/-- C6: `is_en_passant` holds exactly when the destination is the diagonal
forward-one square, the most recent history entry is a straight two-square
forward move of an opposite-color pawn (as judged by the piece currently on
that entry's end square), and that pawn's current column equals the
destination column; with an empty history it is false. -/
theorem C6_en_passant_iff (b : Board) (start_piece : Piece) (s e : Coord) :
    (b.is_en_passant start_piece s e = true ↔
      e.row = s.row + start_piece.color.forward ∧ (e.col - s.col).natAbs = 1 ∧
        ∃ prev_start prev_end, b.history.getLast? = some (prev_start, prev_end) ∧
          e.col = prev_end.col ∧ prev_start.col = prev_end.col ∧
          prev_end.row = prev_start.row - start_piece.color.forward * 2 ∧
          ∃ prev_piece, b.get prev_end = some prev_piece ∧
            prev_piece.kind = PieceKind.Pawn ∧ prev_piece.color ≠ start_piece.color) ∧
    (b.history = [] → b.is_en_passant start_piece s e = false) := by
  constructor
  · cases hl : b.history.getLast? with
    | none =>
      constructor
      · intro h
        simp [Board.is_en_passant, hl] at h
      · rintro ⟨_, _, ps1, pe1, hl1, _⟩
        simp at hl1
    | some pr =>
      obtain ⟨ps, pe⟩ := pr
      cases hp : b.get pe with
      | none =>
        constructor
        · intro h
          simp [Board.is_en_passant, hl, hp] at h
        · rintro ⟨_, _, ps1, pe1, hl1, _, _, _, pp1, hp1, _⟩
          have hx := Prod.ext_iff.mp (Option.some.inj hl1)
          obtain ⟨hx1, hx2⟩ := hx
          subst hx1
          subst hx2
          rw [hp] at hp1
          simp at hp1
      | some pp =>
        constructor
        · intro h
          unfold Board.is_en_passant at h
          simp only [hl, hp, Bool.and_eq_true, decide_eq_true_eq, and_assoc] at h
          obtain ⟨h1, h2, h3, h4, h5, h6, h7⟩ := h
          exact ⟨h1, h2, ps, pe, rfl, h3, h4, h5, pp, hp, h6, h7⟩
        · rintro ⟨h1, h2, ps1, pe1, hl1, h3, h4, h5, pp1, hp1, h6, h7⟩
          have hx := Prod.ext_iff.mp (Option.some.inj hl1)
          obtain ⟨hx1, hx2⟩ := hx
          subst hx1
          subst hx2
          rw [hp] at hp1
          have hy := Option.some.inj hp1
          subst hy
          unfold Board.is_en_passant
          simp only [hl, hp, Bool.and_eq_true, decide_eq_true_eq, and_assoc]
          exact ⟨h1, h2, h3, h4, h5, h6, h7⟩
  · intro h
    simp [Board.is_en_passant, h]

theorem C6_en_passant_iff_witness :
    Board.new.is_en_passant (Piece.new PieceKind.Pawn Color.White false)
      { row := 4, col := 4 } { row := 5, col := 3 } = false :=
  (C6_en_passant_iff Board.new (Piece.new PieceKind.Pawn Color.White false)
    { row := 4, col := 4 } { row := 5, col := 3 }).2 rfl
